import Mathlib

/-!
Shallow embedding of the core logic of the content-suite backend
(brand-manual chunking, RAG reranking, audit verdict policy, governance
state transitions, content generation control flow, manual normalization
and LLM JSON extraction), together with theorems settling the spec claims.

Python dicts holding JSON data are modelled as association lists of
`String × JValue`; dynamic values as the `JValue` inductive; exceptions
as `Option`/`Except`; floats as rationals.
-/

/-- A Python/JSON dynamic value.  Numbers are kept in parsed-literal form
(sign, integer digits, fraction digits, decimal exponent) so that both
JSON integers and decimals are represented exactly. -/
inductive JValue where
  | null : JValue
  | bool (b : Bool) : JValue
  | num (neg : Bool) (ip : Nat) (frac : List Nat) (exp : Int) : JValue
  | str (s : String) : JValue
  | arr (xs : List JValue) : JValue
  | obj (fields : List (String × JValue)) : JValue

/-- The JSON integer `n` as a `JValue` (`json.loads` of a plain integer literal). -/
def jint (n : Int) : JValue := .num (n < 0) n.natAbs [] 0

/-- Python truthiness (`bool(v)`) of a JSON-shaped value. -/
def pyTruthy : JValue → Bool
  | .null => false
  | .bool b => b
  | .num _ ip frac _ => !(ip == 0 && frac.all (· == 0))
  | .str s => !(s == "")
  | .arr xs => !xs.isEmpty
  | .obj fs => !fs.isEmpty

/-- Python `a or b` for an optional dict lookup: `d.get(k) or dflt`. -/
def pyOr (v : Option JValue) (dflt : JValue) : JValue :=
  match v with
  | none => dflt
  | some x => if pyTruthy x then x else dflt

/-- Python `len(v)`: defined for strings, lists and dicts; `none` models a
`TypeError` on other values. -/
def pyLen : JValue → Option Nat
  | .str s => some s.length
  | .arr xs => some xs.length
  | .obj fs => some fs.length
  | _ => none

/-- Lookup in a Python dict modelled as an association list (`d.get(k)`). -/
def dget (d : List (String × JValue)) (k : String) : Option JValue :=
  (d.find? (fun p => p.1 == k)).map (·.2)

/-- Python dict assignment `d[k] = v`: replaces the first binding of `k`
in place, else appends (insertion order is preserved, as in Python). -/
def dset : List (String × JValue) → String → JValue → List (String × JValue)
  | [], k, v => [(k, v)]
  | (k', v') :: rest, k, v =>
      if k' == k then (k, v) :: rest else (k', v') :: dset rest k v

/-- Python `s.strip()`: drop whitespace from both ends. -/
def pyStrip (s : String) : String :=
  String.mk (((s.toList.dropWhile Char.isWhitespace).reverse.dropWhile Char.isWhitespace).reverse)

/-- Python `s.lower()` (ASCII). -/
def pyLower (s : String) : String := String.mk (s.toList.map Char.toLower)

/-- Python `s.upper()` (ASCII). -/
def pyUpper (s : String) : String := String.mk (s.toList.map Char.toUpper)

/-- Python `s.startswith(pre)`. -/
def pyStartsWith (s pre : String) : Bool := pre.toList.isPrefixOf s.toList

/-- Python `s.replace("\r", "")`. -/
def removeCR (s : String) : String := String.mk (s.toList.filter (fun c => c != '\r'))

/-- Split a character list at a separator (`str.split(sep)` semantics). -/
def splitOnChar (sep : Char) : List Char → List (List Char)
  | [] => [[]]
  | x :: rest =>
    let r := splitOnChar sep rest
    if x == sep then [] :: r
    else match r with
         | h :: t => (x :: h) :: t
         | [] => [[x]]

/-- Value of a number literal (sign, integer part, fraction digits, exponent)
as an exact rational. -/
def numVal (neg : Bool) (ip : Nat) (frac : List Nat) (exp : Int) : ℚ :=
  let base : ℚ := (ip : ℚ) + (frac.foldr (fun d acc => ((d : ℚ) + acc) / 10) 0)
  let signed : ℚ := if neg then -base else base
  signed * (10 : ℚ) ^ exp

/-- Truncation of a rational toward zero, as Python `int()` on a float. -/
def ratTrunc (q : ℚ) : Int := if 0 ≤ q then ⌊q⌋ else -⌊-q⌋

/-- Python `int(v)`: `none` models a raised `TypeError`/`ValueError`.
Booleans coerce to 0/1, numbers truncate toward zero, strings must spell
an optionally signed integer after stripping whitespace; everything else
raises. -/
def pyInt : JValue → Option Int
  | .bool b => some (if b then 1 else 0)
  | .num neg ip frac exp => some (ratTrunc (numVal neg ip frac exp))
  | .str s =>
      let t := pyStrip s
      let (sign, digits) :=
        match t.toList with
        | '-' :: rest => (true, rest)
        | '+' :: rest => (false, rest)
        | l => (false, l)
      if digits.isEmpty || !digits.all Char.isDigit then none
      else
        let n : Nat := digits.foldl (fun acc c => acc * 10 + (c.toNat - 48)) 0
        some (if sign then -(n : Int) else (n : Int))
  | _ => none

/-! ## Reranker (src/app/services/rerank.py) -/

/-- A retrieved chunk passed to `rerank_chunks`: only the `section` and
`similarity` keys of the chunk dict take part in scoring; `payload` stands
for the remaining fields, carried through untouched. -/
structure RChunk where
  sectionName : Option String
  similarity : Option ℚ
  payload : String := ""
deriving DecidableEq, Repr

/-- Priority weights for manual sections (`BASE_SECTION_WEIGHTS`). -/
def BASE_SECTION_WEIGHTS : List (String × Int) :=
  [("messaging.forbidden_claims", 100),
   ("messaging.forbidden_terms", 100),
   ("tone.donts", 90),
   ("tone.dos", 85),
   ("style_rules", 80),
   ("approval_checklist", 75),
   ("messaging.preferred_terms", 70),
   ("messaging.value_props", 65),
   ("messaging.taglines", 60),
   ("visual.logo_rules", 40),
   ("visual.typography", 35),
   ("visual.colors", 35),
   ("visual.image_style", 30),
   ("visual.notes", 20),
   ("examples.bad", 15),
   ("examples.good", 10)]

/-- `_weight_for_section`: first prefix match in the table wins, else 0. -/
def _weight_for_section (sec : String) : Int :=
  let s := pyStrip sec
  match BASE_SECTION_WEIGHTS.find? (fun pw => s == pw.1 || pyStartsWith s pw.1) with
  | some pw => pw.2
  | none => 0

/-- Python `x or 0.0` on an optional float. -/
def pyOrZero (v : Option ℚ) : ℚ :=
  match v with
  | none => 0
  | some x => if x == 0 then 0 else x

/-- The inner `score` function of `rerank_chunks`, translated line by line:
the content-type bonus is added to `w` before the `* 1000.0`. -/
def score (content_type : String) (c : RChunk) : ℚ :=
  let w : Int := _weight_for_section (c.sectionName.getD "")
  let sim : ℚ := pyOrZero c.similarity
  let sec : String := c.sectionName.getD ""
  let w : Int :=
    if content_type == "image_prompt" then
      (if pyStartsWith sec "visual." then w + 25 else w)
    else if content_type == "video_script" then
      (if pyStartsWith sec "tone." then w + 10 else w)
    else if content_type == "product_description" then
      (let w := if pyStartsWith sec "messaging.value_props" then w + 10 else w
       if pyStartsWith sec "messaging.preferred_terms" then w + 10 else w)
    else w
  (w : ℚ) * 1000 + sim * 100

/-- `rerank_chunks`: Python's `sorted(chunks, key=score, reverse=True)` is the
stable descending sort; `insertionSort` with the total preorder
`score b ≤ score a` inserts earlier elements before later equal-score ones,
which is the same stable descending order, followed by `[:keep_k]`. -/
def rerank_chunks (chunks : List RChunk) (content_type : String) (keep_k : Nat) : List RChunk :=
  (List.insertionSort
    (fun a b => score content_type b ≤ score content_type a) chunks).take keep_k

/-- The content-type bonus of `score`, extracted as a standalone function. -/
def type_bonus (content_type : String) (sec : String) : Int :=
  if content_type == "image_prompt" then
    (if pyStartsWith sec "visual." then 25 else 0)
  else if content_type == "video_script" then
    (if pyStartsWith sec "tone." then 10 else 0)
  else if content_type == "product_description" then
    (if pyStartsWith sec "messaging.value_props" then 10 else 0) +
    (if pyStartsWith sec "messaging.preferred_terms" then 10 else 0)
  else 0

/-- The weight that actually multiplies 1000 in `score`: table weight plus
content-type bonus. -/
def effective_weight (content_type : String) (c : RChunk) : Int :=
  _weight_for_section (c.sectionName.getD "") + type_bonus content_type (c.sectionName.getD "")

/-- The score formula as the spec words it: the type bonus added outside the
1000-fold weight multiplier.  Stated only to compare against `score`. -/
def spec_claimed_score (content_type : String) (c : RChunk) : ℚ :=
  (_weight_for_section (c.sectionName.getD "") : ℚ) * 1000
    + pyOrZero c.similarity * 100
    + (type_bonus content_type (c.sectionName.getD "") : ℚ)

/-! ## Audit verdict policy (src/app/services/brand_audit.py lines 79-98,
identical in src/app/services/governance.py lines 117-136 and
src/app/routes/brand_audit.py lines 74-94) -/

/-- Lines 79-89 of `audit_brand_image`: parse the model judgment's
`violations` and `validated_rules_count` fields and apply the deterministic
verdict policy.  `none` models a `TypeError` from `len` on an unsized value. -/
def audit_verdict (audit : List (String × JValue)) : Option String :=
  let violations : JValue := pyOr (dget audit "violations") (.arr [])
  let validated_count : Int :=
    (pyInt (pyOr (dget audit "validated_rules_count") (jint 0))).getD 0
  match pyLen violations with
  | none => none
  | some n =>
      some (if 0 < n then "FAIL" else if validated_count < 2 then "FAIL" else "CHECK")

/-- Lines 91-98: the persisted `report_json`, whose `verdict` key holds the
policy verdict, never the model's own `verdict` field. -/
def audit_report (audit : List (String × JValue)) : Option (List (String × JValue)) :=
  match audit_verdict audit with
  | none => none
  | some verdict =>
      let violations : JValue := pyOr (dget audit "violations") (.arr [])
      let validated_count : Int :=
        (pyInt (pyOr (dget audit "validated_rules_count") (jint 0))).getD 0
      some [("verdict", .str verdict),
            ("validated_rules_count", jint validated_count),
            ("validated_rules", pyOr (dget audit "validated_rules") (.arr [])),
            ("violations", violations),
            ("notes", pyOr (dget audit "notes") (.arr [])),
            ("raw", (dget audit "_raw").getD (.str ""))]

/-- Verdict persisted by the registered content audit route
(src/app/routes/governance.py line 147): `audit.get("verdict", "FAIL")`,
i.e. the vision model's own self-reported verdict. -/
def gov_route_verdict (audit : List (String × JValue)) : JValue :=
  (dget audit "verdict").getD (.str "FAIL")

/-! ## Chunker (src/app/services/chunking.py) -/

/-- A `{type, text, rationale}` example item; absent keys are `none`
(`i.get('type')` yields Python `None`, rendered as `"None"` in f-strings). -/
structure ExampleItem where
  type : Option String
  text : Option String
  why : Option String
deriving DecidableEq, Repr

/-- The `tone` section.  `description` is `Option` because the code indexes
`manual["tone"]["description"]` directly (KeyError when absent), while
`dos`/`donts` go through `.get(_, [])`. -/
structure ToneSection where
  description : Option String
  dos : List String := []
  donts : List String := []
deriving DecidableEq, Repr

structure MessagingSection where
  value_props : List String := []
  taglines : List String := []
  forbidden_claims : List String := []
  preferred_terms : List String := []
  forbidden_terms : List String := []
deriving DecidableEq, Repr

structure StyleRulesSection where
  reading_level : Option String := none
  length_guidelines : List (String × String) := []
deriving DecidableEq, Repr

structure VisualSection where
  colors : List String := []
  logo_rules : List String := []
  typography : List String := []
  image_style : List String := []
  notes : Option String := none
deriving DecidableEq, Repr

structure ExamplesSection where
  good : List ExampleItem := []
  bad : List ExampleItem := []
deriving DecidableEq, Repr

/-- The input document of `chunk_manual`.  Top-level keys may each be absent
(`none`); every section except `tone` is read with `.get(_, default)`. -/
structure PyManual where
  tone : Option ToneSection
  messaging : Option MessagingSection := none
  style_rules : Option StyleRulesSection := none
  visual_guidelines : Option VisualSection := none
  examples : Option ExamplesSection := none
  approval_checklist : Option (List String) := none
  assumptions : Option (List String) := none
deriving DecidableEq, Repr

/-- An emitted chunk.  The `metadata` key is always the empty dict in the
source and is omitted here. -/
structure Chunk where
  sectionName : String
  chunk_text : String
deriving DecidableEq, Repr

/-- The inner `add` helper: emit one chunk iff the trimmed text is non-empty. -/
def addChunk (sec text : String) : List Chunk :=
  if pyStrip text == "" then [] else [⟨sec, pyStrip text⟩]

/-- f-string rendering of an optional string (`None` prints as `"None"`). -/
def pyStrOpt (o : Option String) : String := o.getD "None"

/-- Lines 50-52: the three tone chunks (`desc` is `manual["tone"]["description"]`). -/
def toneChunks (t : ToneSection) (desc : String) : List Chunk :=
  addChunk "tone.description" desc ++
  addChunk "tone.dos" ("\n".intercalate t.dos) ++
  addChunk "tone.donts" ("\n".intercalate t.donts)

/-- Lines 54-59: the messaging chunks. -/
def msgChunks (m : MessagingSection) : List Chunk :=
  addChunk "messaging.value_props" ("\n".intercalate m.value_props) ++
  addChunk "messaging.taglines" ("\n".intercalate m.taglines) ++
  addChunk "messaging.forbidden_claims" ("\n".intercalate m.forbidden_claims) ++
  addChunk "messaging.preferred_terms" ("\n".intercalate m.preferred_terms) ++
  addChunk "messaging.forbidden_terms" ("\n".intercalate m.forbidden_terms)

/-- Lines 61-65: the style-rules chunks. -/
def styleChunks (sr : StyleRulesSection) : List Chunk :=
  addChunk "style_rules.reading_level" (sr.reading_level.getD "") ++
  (if !sr.length_guidelines.isEmpty then
    addChunk "style_rules.length_guidelines"
      ("\n".intercalate (sr.length_guidelines.map (fun kv => kv.1 ++ ": " ++ kv.2)))
   else [])

/-- Lines 67-72: the visual-guidelines chunks. -/
def visualChunks (vg : VisualSection) : List Chunk :=
  addChunk "visual.colors" ("\n".intercalate vg.colors) ++
  addChunk "visual.logo_rules" ("\n".intercalate vg.logo_rules) ++
  addChunk "visual.typography" ("\n".intercalate vg.typography) ++
  addChunk "visual.image_style" ("\n".intercalate vg.image_style) ++
  addChunk "visual.notes" (vg.notes.getD "")

/-- Lines 74-80: the good/bad example chunks. -/
def exampleChunks (ex : ExamplesSection) : List Chunk :=
  (if !ex.good.isEmpty then
    addChunk "examples.good"
      ("\n\n".intercalate (ex.good.map (fun i => pyStrOpt i.type ++ ": " ++ pyStrOpt i.text)))
   else []) ++
  (if !ex.bad.isEmpty then
    addChunk "examples.bad"
      ("\n\n".intercalate (ex.bad.map
        (fun i => pyStrOpt i.type ++ ": " ++ pyStrOpt i.text ++ " (why: " ++ i.why.getD "" ++ ")")))
   else [])

/-- `chunk_manual`.  `manual["tone"]` and `["description"]` are hard indexes:
a document without them raises `KeyError` (modelled as `.error`); every other
section is read defensively (`.get`) and silently skipped when absent or empty. -/
def chunk_manual (manual : PyManual) : Except String (List Chunk) :=
  match manual.tone with
  | none => .error "KeyError: tone"
  | some t =>
    match t.description with
    | none => .error "KeyError: description"
    | some desc =>
      .ok (
        toneChunks t desc ++
        msgChunks (manual.messaging.getD {}) ++
        styleChunks (manual.style_rules.getD {}) ++
        visualChunks (manual.visual_guidelines.getD {}) ++
        exampleChunks (manual.examples.getD {}) ++
        addChunk "approval_checklist" ("\n".intercalate (manual.approval_checklist.getD [])) ++
        addChunk "assumptions" ("\n".intercalate (manual.assumptions.getD [])))

/-! ## Governance decisions (src/app/services/governance.py,
src/app/repositories/governance.py) -/

/-- A row of the `content_items` table (only `status` matters here). -/
structure ContentItem where
  status : String
deriving DecidableEq, Repr

/-- A row of the append-only `approvals` table. -/
structure ApprovalRecord where
  content_item_id : String
  role : Option String
  decision : String
  comment : Option String
  created_by : Option String
deriving DecidableEq, Repr

/-- The record store as seen by the governance service. -/
structure GovStore where
  content_items : List (String × ContentItem)
  approvals : List ApprovalRecord
deriving DecidableEq, Repr

structure HTTPError where
  status_code : Nat
  detail : String
deriving DecidableEq, Repr

/-- `update_content_status`: set the status, return whether a row matched. -/
def update_content_status (st : GovStore) (content_id status : String) : GovStore × Bool :=
  if (st.content_items.find? (fun p => p.1 == content_id)).isSome then
    let upd := st.content_items.map
      (fun p => if p.1 == content_id then (p.1, { p.2 with status := status }) else p)
    ({ st with content_items := upd }, true)
  else (st, false)

/-- `insert_approval`: append one row to the approvals table. -/
def insert_approval (st : GovStore) (content_id : String) (role : Option String)
    (decision : String) (comment : Option String) (created_by : Option String) : GovStore :=
  { st with approvals := st.approvals ++ [⟨content_id, role, decision, comment, created_by⟩] }

/-- `_record_decision`: guard the status update, then append history.
The `Option HTTPError` component is the raised exception, if any. -/
def _record_decision (st : GovStore) (content_id decision : String)
    (comment : Option String) (role created_by : Option String) : GovStore × Option HTTPError :=
  let r := update_content_status st content_id (pyUpper decision)
  if !r.2 then (r.1, some ⟨404, "Content not found"⟩)
  else (insert_approval r.1 content_id role (pyUpper decision) comment created_by, none)

/-- `approve`. -/
def approve (st : GovStore) (content_id : String) (comment : Option String)
    (role created_by : Option String) : GovStore × Option HTTPError :=
  _record_decision st content_id "APPROVED" comment role created_by

/-- `reject`. -/
def reject (st : GovStore) (content_id : String) (comment : Option String)
    (role created_by : Option String) : GovStore × Option HTTPError :=
  _record_decision st content_id "REJECTED" comment role created_by

/-! ## Content generation control flow (src/app/services/content.py) -/

/-- External calls made by `generate_content`, in order. -/
inductive GenEvent where
  | embedCall
  | retrieveCall
  | llmCall
  | persistCall
deriving DecidableEq, Repr

/-- Results the external collaborators would return, supplied as inputs:
the latest manual id (none = no manual), the retrieved chunks, the LLM
completion text and the insert result (none = insert failed). -/
structure GenEnv where
  latest_manual : Option String
  rag_chunks : List RChunk
  llm_output : String
  insert_result : Option String
deriving DecidableEq, Repr

structure GenRequest where
  brand_id : String
  type : String
  brief : String
deriving DecidableEq, Repr

/-- Successful generation result: content id, status, reranked chunks, text. -/
structure GenResult where
  content_id : String
  status : String
  reranked_chunks : List RChunk
  output_text : String
deriving DecidableEq, Repr

/-- `generate_content`: the control flow of the service, with the list of
external calls actually performed as a trace. -/
def generate_content (env : GenEnv) (req : GenRequest) :
    Except HTTPError GenResult × List GenEvent :=
  match env.latest_manual with
  | none => (.error ⟨409, "No existe manual. Crea Brand DNA primero."⟩, [])
  | some _ =>
    let evs := [GenEvent.embedCall, GenEvent.retrieveCall]
    if env.rag_chunks.length < 3 then
      (.error ⟨422, "RAG insuficiente: no se recuperó contexto suficiente del manual."⟩, evs)
    else
      let reranked := rerank_chunks env.rag_chunks req.type 6
      match env.insert_result with
      | none => (.error ⟨500, "Failed to save content item"⟩,
                 evs ++ [GenEvent.llmCall, GenEvent.persistCall])
      | some cid => (.ok ⟨cid, "PENDING", reranked, env.llm_output⟩,
                     evs ++ [GenEvent.llmCall, GenEvent.persistCall])

/-! ## Manual normalization (src/app/services/manual_normalize.py) -/

/-- Rendering of a number literal, for Python `str()` on numbers. -/
def pyNumLit (neg : Bool) (ip : Nat) (frac : List Nat) (exp : Int) : String :=
  (if neg then "-" else "") ++ toString ip ++
  (if frac.isEmpty then "" else "." ++ String.mk (frac.map (fun d => Char.ofNat (48 + d)))) ++
  (if exp == 0 then "" else "e" ++ toString exp)

mutual
/-- Python `str(v)` on a JSON-shaped value. -/
def pyStr : JValue → String
  | .null => "None"
  | .bool true => "True"
  | .bool false => "False"
  | .num neg ip frac exp => pyNumLit neg ip frac exp
  | .str s => s
  | .arr xs => "[" ++ ", ".intercalate (xs.attach.map (fun x => pyRepr x.1)) ++ "]"
  | .obj fs =>
      "\x7b" ++ ", ".intercalate (fs.attach.map (fun kv => "'" ++ kv.1.1 ++ "': " ++ pyRepr kv.1.2)) ++ "\x7d"
termination_by v => (sizeOf v, 0)
decreasing_by
  · have := List.sizeOf_lt_of_mem x.2
    refine Prod.Lex.left _ _ ?_
    simp only [JValue.arr.sizeOf_spec]
    omega
  · have h1 := List.sizeOf_lt_of_mem kv.2
    have h2 : sizeOf kv.1.2 < sizeOf kv.1 := by
      rcases hkv : kv.1 with ⟨a, b⟩
      simp [hkv]
    refine Prod.Lex.left _ _ ?_
    simp only [JValue.obj.sizeOf_spec]
    omega

/-- Python `repr(v)` as used when rendering container elements. -/
def pyRepr : JValue → String
  | .str s => "'" ++ s ++ "'"
  | v => pyStr v
termination_by v => (sizeOf v, 1)
decreasing_by
  all_goals exact Prod.Lex.right _ (by omega)
end

/-- Python `s.strip(chars)`: drop characters of the set from both ends. -/
def pyStripSet (s : String) (set : List Char) : String :=
  String.mk (((s.toList.dropWhile (set.contains ·)).reverse.dropWhile (set.contains ·)).reverse)

/-- `_ensure_list`: `None` to `[]`, lists kept, strings split on newlines with
bullets stripped (falling back to the trimmed string), scalars wrapped. -/
def _ensure_list (v : JValue) : List JValue :=
  match v with
  | .null => []
  | .arr xs => xs
  | .str s =>
      let parts := (splitOnChar '\n' (removeCR s).toList).map
        (fun cs => pyStripSet (String.mk cs) [' ', '-', '•', '\t'])
      let parts := parts.filter (fun p => p != "")
      if parts.isEmpty then [.str (pyStrip s)] else parts.map JValue.str
  | v => [.str (pyStr v)]

/-- `_ensure_dict`. -/
def _ensure_dict (v : JValue) : JValue :=
  match v with
  | .null => .obj []
  | .obj fs => .obj fs
  | .str s => .obj [("notes", .str s)]
  | v => .obj [("value", v)]

/-- Python `needle in hay` on strings. -/
def strContains (hay needle : String) : Bool :=
  hay.toList.tails.any (fun t => needle.toList.isPrefixOf t)

/-- `d[k] = _ensure_list(d.get(k))` for one key. -/
def ensureListKey (d : List (String × JValue)) (k : String) : List (String × JValue) :=
  dset d k (.arr (_ensure_list ((dget d k).getD .null)))

/-- Lookup a key of a `JValue` that should be an object. -/
def jget (v : JValue) (k : String) : Option JValue :=
  match v with
  | .obj fs => dget fs k
  | _ => none

/-- `section = m.get(k) or {}` followed by attribute access: `some` of the
dict when the value is a dict (or falsy, giving `{}`), `none` for the
`AttributeError` raised on a truthy non-dict. -/
def getSection (m : List (String × JValue)) (k : String) : Option (List (String × JValue)) :=
  match pyOr (dget m k) (.obj []) with
  | .obj fs => some fs
  | _ => none

/-- The `style_rules` block of `normalize_manual_dict` (lines 112-123). -/
def normalize_style_rules (m : List (String × JValue)) : Option (List (String × JValue)) :=
  (getSection m "style_rules").map (fun sr =>
    let rl := (dget sr "reading_level").getD (.str "simple")
    let rl := match rl with
      | .str s => JValue.str (if strContains (pyLower s) "med" then "medium" else "simple")
      | v => v
    let sr := dset sr "reading_level" rl
    let sr := dset sr "length_guidelines" (_ensure_dict ((dget sr "length_guidelines").getD .null))
    dset m "style_rules" (.obj sr))

/-- The `visual_guidelines` block (lines 126-131). -/
def normalize_visual (m : List (String × JValue)) : Option (List (String × JValue)) :=
  (getSection m "visual_guidelines").map (fun vg =>
    dset m "visual_guidelines" (.obj (ensureListKey (ensureListKey (ensureListKey
      (ensureListKey vg "colors") "logo_rules") "typography") "image_style")))

/-- The `messaging` block (lines 134-137). -/
def normalize_messaging (m : List (String × JValue)) : Option (List (String × JValue)) :=
  (getSection m "messaging").map (fun msg =>
    dset m "messaging" (.obj (["value_props", "taglines", "forbidden_claims",
      "preferred_terms", "forbidden_terms"].foldl ensureListKey msg)))

/-- The `tone` block (lines 140-143). -/
def normalize_tone (m : List (String × JValue)) : Option (List (String × JValue)) :=
  (getSection m "tone").map (fun tone =>
    dset m "tone" (.obj (ensureListKey (ensureListKey tone "dos") "donts")))

/-- The `approval_checklist`/`assumptions` lines (146-147). -/
def normalize_lists (m : List (String × JValue)) : List (String × JValue) :=
  dset (dset m "approval_checklist" (.arr (_ensure_list ((dget m "approval_checklist").getD .null))))
    "assumptions" (.arr (_ensure_list ((dget m "assumptions").getD .null)))

/-- `normalize_manual_dict`: the section blocks in source order.  `none`
models the `AttributeError` raised when a truthy non-dict sits where a
section dict is expected. -/
def normalize_manual_dict (m : List (String × JValue)) : Option (List (String × JValue)) :=
  (normalize_style_rules m).bind (fun m1 =>
    (normalize_visual m1).bind (fun m2 =>
      (normalize_messaging m2).bind (fun m3 =>
        (normalize_tone m3).map normalize_lists)))

/-! ## JSON extraction (src/app/utils/json_repair.py), with a parser
modelling Python's `json.loads`. -/

/-- The opening and closing brace characters. -/
def braceOpen : Char := Char.ofNat 123

def braceClose : Char := Char.ofNat 125

/-- JSON insignificant whitespace. -/
def skipWs (cs : List Char) : List Char :=
  cs.dropWhile (fun c => c == ' ' || c == '\t' || c == '\n' || c == '\r')

/-- Hex digit value. -/
def hexVal (c : Char) : Option Nat :=
  if '0' ≤ c && c ≤ '9' then some (c.toNat - 48)
  else if 'a' ≤ c && c ≤ 'f' then some (c.toNat - 87)
  else if 'A' ≤ c && c ≤ 'F' then some (c.toNat - 55)
  else none

/-- Parse the body of a JSON string after its opening quote, handling the
standard escapes; returns the content and the remaining input. -/
def parseStringChars : List Char → Option (List Char × List Char)
  | [] => none
  | '"' :: rest => some ([], rest)
  | '\\' :: e :: rest =>
      if e == 'u' then
        match rest with
        | a :: b :: c :: d :: tl =>
            match hexVal a, hexVal b, hexVal c, hexVal d with
            | some ha, some hb, some hc, some hd =>
                (parseStringChars tl).map
                  (fun p => (Char.ofNat (((ha * 16 + hb) * 16 + hc) * 16 + hd) :: p.1, p.2))
            | _, _, _, _ => none
        | _ => none
      else
        match
          (if e == '"' then some '"'
           else if e == '\\' then some '\\'
           else if e == '/' then some '/'
           else if e == 'b' then some (Char.ofNat 8)
           else if e == 'f' then some (Char.ofNat 12)
           else if e == 'n' then some '\n'
           else if e == 'r' then some '\r'
           else if e == 't' then some '\t'
           else none) with
        | some c => (parseStringChars rest).map (fun p => (c :: p.1, p.2))
        | none => none
  | c :: rest => (parseStringChars rest).map (fun p => (c :: p.1, p.2))

/-- Digits of a character run as a natural number. -/
def digitsToNat (ds : List Char) : Nat :=
  ds.foldl (fun acc c => acc * 10 + (c.toNat - 48)) 0

/-- Parse a JSON number literal (strict grammar: `-?(0|[1-9][0-9]*)` with
optional fraction and exponent). -/
def parseNum (cs : List Char) : Option (JValue × List Char) :=
  let (neg, cs1) := match cs with
    | '-' :: t => (true, t)
    | _ => (false, cs)
  let ipDigits := cs1.takeWhile Char.isDigit
  let afterIp := cs1.drop ipDigits.length
  if ipDigits.isEmpty then none
  else if ipDigits.length > 1 && ipDigits.headD '0' == '0' then none
  else
    let (fracDigits, afterFrac) :=
      match afterIp with
      | '.' :: t =>
          let fd := t.takeWhile Char.isDigit
          (fd, t.drop fd.length)
      | _ => ([], afterIp)
    if (match afterIp with | '.' :: _ => fracDigits.isEmpty | _ => false) then none
    else
      match afterFrac with
      | e :: t =>
          if e == 'e' || e == 'E' then
            let (esign, t1) := match t with
              | '-' :: t' => (true, t')
              | '+' :: t' => (false, t')
              | _ => (false, t)
            let ed := t1.takeWhile Char.isDigit
            if ed.isEmpty then none
            else
              let ev : Int := if esign then -(digitsToNat ed : Int) else (digitsToNat ed : Int)
              some (.num neg (digitsToNat ipDigits) (fracDigits.map (fun c => c.toNat - 48)) ev,
                    t1.drop ed.length)
          else some (.num neg (digitsToNat ipDigits) (fracDigits.map (fun c => c.toNat - 48)) 0,
                     afterFrac)
      | [] => some (.num neg (digitsToNat ipDigits) (fracDigits.map (fun c => c.toNat - 48)) 0, [])

mutual
/-- Parse one JSON value (fuelled recursive-descent). -/
def parseValue : Nat → List Char → Option (JValue × List Char)
  | 0, _ => none
  | fuel + 1, cs =>
    match skipWs cs with
    | [] => none
    | 'n' :: 'u' :: 'l' :: 'l' :: rest => some (.null, rest)
    | 't' :: 'r' :: 'u' :: 'e' :: rest => some (.bool true, rest)
    | 'f' :: 'a' :: 'l' :: 's' :: 'e' :: rest => some (.bool false, rest)
    | '"' :: rest => (parseStringChars rest).map (fun p => (.str (String.mk p.1), p.2))
    | c :: rest =>
        if c == braceOpen then
          (parseObjItems fuel rest).map
            (fun p => (.obj (p.1.foldl (fun acc kv => dset acc kv.1 kv.2) []), p.2))
        else if c == '[' then
          (parseArrItems fuel rest).map (fun p => (.arr p.1, p.2))
        else parseNum (c :: rest)
termination_by structural fuel _ => fuel

/-- Parse array items, positioned right after `[`. -/
def parseArrItems : Nat → List Char → Option (List JValue × List Char)
  | 0, _ => none
  | fuel + 1, cs =>
    match skipWs cs with
    | ']' :: rest => some ([], rest)
    | cs' => parseArrRest fuel cs'
termination_by structural fuel _ => fuel

/-- Parse one array item and the rest of the array. -/
def parseArrRest : Nat → List Char → Option (List JValue × List Char)
  | 0, _ => none
  | fuel + 1, cs =>
    match parseValue fuel cs with
    | none => none
    | some (v, rest) =>
      match skipWs rest with
      | ',' :: t => (parseArrRest fuel t).map (fun p => (v :: p.1, p.2))
      | ']' :: t => some ([v], t)
      | _ => none
termination_by structural fuel _ => fuel

/-- Parse object members, positioned right after the opening brace. -/
def parseObjItems : Nat → List Char → Option (List (String × JValue) × List Char)
  | 0, _ => none
  | fuel + 1, cs =>
    match skipWs cs with
    | c :: rest =>
        if c == braceClose then some ([], rest)
        else parseObjRest fuel (c :: rest)
    | [] => none
termination_by structural fuel _ => fuel

/-- Parse one `"key": value` member and the rest of the object. -/
def parseObjRest : Nat → List Char → Option (List (String × JValue) × List Char)
  | 0, _ => none
  | fuel + 1, cs =>
    match skipWs cs with
    | '"' :: rest =>
      match parseStringChars rest with
      | none => none
      | some (kcs, rest1) =>
        match skipWs rest1 with
        | ':' :: rest2 =>
          match parseValue fuel rest2 with
          | none => none
          | some (v, rest3) =>
            match skipWs rest3 with
            | ',' :: t => (parseObjRest fuel t).map (fun p => ((String.mk kcs, v) :: p.1, p.2))
            | c :: t => if c == braceClose then some ([(String.mk kcs, v)], t) else none
            | [] => none
        | _ => none
    | _ => none
termination_by structural fuel _ => fuel
end

/-- Python `json.loads` (best-effort model): parse one value and require
only whitespace to remain.  `none` models `json.JSONDecodeError`. -/
def json_loads (s : String) : Option JValue :=
  let cs := s.toList
  match parseValue (3 * cs.length + 3) cs with
  | some (v, rest) => if (skipWs rest).isEmpty then some v else none
  | none => none

/-- One pass of `re.sub(r"```(json)?", "", text, flags=IGNORECASE)` (the
later `.replace("```", "")` has nothing left to remove): drop every
backtick fence, together with an immediately following `json` of any case. -/
def stripFencesAux : Nat → List Char → List Char
  | 0, cs => cs
  | fuel + 1, cs =>
    match cs with
    | '`' :: '`' :: '`' :: rest =>
        (match rest with
         | a :: b :: c :: d :: tl =>
             if pyLower (String.mk [a, b, c, d]) == "json" then stripFencesAux fuel tl
             else stripFencesAux fuel rest
         | _ => stripFencesAux fuel rest)
    | c :: rest => c :: stripFencesAux fuel rest
    | [] => []

/-- Fence-stripping plus `strip()`, as the first line of `extract_json`.
The fuel `length + 1` is an upper bound on the scan steps, each of which
consumes at least one character. -/
def stripFences (s : String) : String :=
  pyStrip (String.mk (stripFencesAux (s.toList.length + 1) s.toList))

/-- The `re.search(r"\x7b.*\x7d", cleaned, flags=re.DOTALL)` match: from the
first opening brace to the last closing brace, provided the first `\x7b`
precedes the last `\x7d`. -/
def braceSpan (s : String) : Option String :=
  let cs := s.toList
  match cs.findIdx? (· == braceOpen), cs.reverse.findIdx? (· == braceClose) with
  | some i, some r =>
      let j := cs.length - 1 - r
      if i < j then some (String.mk ((cs.drop i).take (j - i + 1))) else none
  | _, _ => none

/-- Exceptions `extract_json` may raise. -/
inductive PyErr where
  | valueError (msg : String)
  | jsonDecodeError
deriving DecidableEq, Repr

/-- `extract_json`: strip fences, try a direct parse, then parse the first
brace-to-last-brace span; `ValueError` when no braces, `JSONDecodeError`
when the extracted span is itself invalid. -/
def extract_json (text : String) : Except PyErr JValue :=
  let cleaned := stripFences text
  match json_loads cleaned with
  | some v => .ok v
  | none =>
    match braceSpan cleaned with
    | none => .error (.valueError "No JSON object found in LLM output.")
    | some sub =>
      match json_loads sub with
      | some v => .ok v
      | none => .error .jsonDecodeError


/-! ## Helper lemmas -/

lemma natAbs_cast_q (n : Int) : ((n.natAbs : ℚ)) = |(n : ℚ)| := by
  rw [Int.cast_natAbs, Int.cast_abs]

lemma numVal_jint (n : Int) : numVal (decide (n < 0)) n.natAbs [] 0 = (n : ℚ) := by
  unfold numVal
  simp only [List.foldr_nil, add_zero, zpow_zero, mul_one]
  by_cases h : n < 0
  · have h' : (n : ℚ) < 0 := by exact_mod_cast h
    simp [h, natAbs_cast_q, abs_of_neg h']
  · have h' : (0 : ℚ) ≤ (n : ℚ) := by exact_mod_cast (le_of_not_lt h)
    simp [h, natAbs_cast_q, abs_of_nonneg h']

lemma ratTrunc_intCast (n : Int) : ratTrunc (n : ℚ) = n := by
  unfold ratTrunc
  by_cases h : (0 : ℚ) ≤ (n : ℚ)
  · simp [h, Int.floor_intCast]
  · have e : (-(n : ℚ)) = ((-n : Int) : ℚ) := by push_cast; ring
    rw [if_neg h, e, Int.floor_intCast, neg_neg]

lemma pyInt_jint (n : Int) : pyInt (jint n) = some n := by
  show pyInt (.num (decide (n < 0)) n.natAbs [] 0) = some n
  simp only [pyInt]
  rw [numVal_jint, ratTrunc_intCast]

lemma pyTruthy_jint_iff (n : Int) : pyTruthy (jint n) = true ↔ n ≠ 0 := by
  show (!(n.natAbs == 0 && List.all [] (fun x => x == 0))) = true ↔ n ≠ 0
  simp only [List.all_nil, Bool.and_true, Bool.not_eq_true', beq_eq_false_iff_ne, ne_eq,
    Int.natAbs_eq_zero]

lemma getD_pyInt_jint (n : Int) :
    (pyInt (pyOr (some (jint n)) (jint 0))).getD 0 = n := by
  unfold pyOr
  by_cases h : pyTruthy (jint n) = true
  · simp [h, pyInt_jint]
  · have h0 : n = 0 := by
      by_contra hn
      exact h ((pyTruthy_jint_iff n).mpr hn)
    subst h0
    simp [h, pyInt_jint]

lemma dget_dset_eq (d : List (String × JValue)) (k : String) (v : JValue) :
    dget (dset d k v) k = some v := by
  induction d with
  | nil => simp [dset, dget]
  | cons hd tl ih =>
    obtain ⟨k', v'⟩ := hd
    by_cases h : k' == k
    · simp [dset, h, dget]
    · simp only [dset, h, Bool.false_eq_true, if_false]
      unfold dget at ih ⊢
      rw [List.find?_cons_of_neg]
      · exact ih
      · simpa using h

lemma dget_dset_ne (d : List (String × JValue)) (k k' : String) (v : JValue)
    (h : k ≠ k') : dget (dset d k v) k' = dget d k' := by
  induction d with
  | nil =>
    have hkk : (k == k') = false := by simpa using h
    simp [dset, dget, List.find?, hkk]
  | cons hd tl ih =>
    obtain ⟨k0, v0⟩ := hd
    by_cases h0 : k0 == k
    · have hk0 : k0 = k := by simpa using h0
      subst hk0
      simp only [dset, beq_self_eq_true, if_true]
      unfold dget
      rw [List.find?_cons_of_neg, List.find?_cons_of_neg]
      · simpa using h
      · simpa using h
    · simp only [dset, h0, Bool.false_eq_true, if_false]
      by_cases h1 : k0 == k'
      · simp [dget, List.find?, h1]
      · unfold dget at ih ⊢
        rw [List.find?_cons_of_neg, List.find?_cons_of_neg]
        · exact ih
        · simpa using h1
        · simpa using h1

lemma score_eq_effective (ct : String) (c : RChunk) :
    score ct c = ((effective_weight ct c : Int) : ℚ) * 1000 + pyOrZero c.similarity * 100 := by
  unfold score effective_weight type_bonus
  simp only [apply_ite (fun z : Int => (z : ℚ))]
  split_ifs <;> push_cast <;> ring

lemma sectionName_of_mem_addChunk {c : Chunk} {s t : String} (h : c ∈ addChunk s t) :
    c.sectionName = s := by
  unfold addChunk at h
  split at h
  · simp at h
  · rw [List.mem_singleton] at h
    subst h
    rfl

lemma addChunk_empty (s : String) : addChunk s "" = [] := rfl

lemma msgChunks_default : msgChunks {} = [] := rfl

lemma styleChunks_default : styleChunks {} = [] := rfl

lemma visualChunks_default : visualChunks {} = [] := rfl

lemma exampleChunks_default : exampleChunks {} = [] := rfl

lemma mem_append7 {α : Type} {c : α} {l1 l2 l3 l4 l5 l6 l7 : List α}
    (h : c ∈ l1 ++ l2 ++ l3 ++ l4 ++ l5 ++ l6 ++ l7) :
    c ∈ l1 ∨ c ∈ l2 ∨ c ∈ l3 ∨ c ∈ l4 ∨ c ∈ l5 ∨ c ∈ l6 ∨ c ∈ l7 := by
  simp only [List.mem_append] at h
  tauto

lemma mem_toneChunks {c : Chunk} {t : ToneSection} {d : String}
    (h : c ∈ toneChunks t d) :
    c.sectionName = "tone.description" ∨ c.sectionName = "tone.dos" ∨
      c.sectionName = "tone.donts" := by
  unfold toneChunks at h
  rcases List.mem_append.mp h with h | h
  · rcases List.mem_append.mp h with h | h
    · exact Or.inl (sectionName_of_mem_addChunk h)
    · exact Or.inr (Or.inl (sectionName_of_mem_addChunk h))
  · exact Or.inr (Or.inr (sectionName_of_mem_addChunk h))

lemma mem_msgChunks {c : Chunk} {ms : MessagingSection}
    (h : c ∈ msgChunks ms) :
    c.sectionName = "messaging.value_props" ∨ c.sectionName = "messaging.taglines" ∨
      c.sectionName = "messaging.forbidden_claims" ∨
      c.sectionName = "messaging.preferred_terms" ∨
      c.sectionName = "messaging.forbidden_terms" := by
  unfold msgChunks at h
  rcases List.mem_append.mp h with h | h
  · rcases List.mem_append.mp h with h | h
    · rcases List.mem_append.mp h with h | h
      · rcases List.mem_append.mp h with h | h
        · exact Or.inl (sectionName_of_mem_addChunk h)
        · exact Or.inr (Or.inl (sectionName_of_mem_addChunk h))
      · exact Or.inr (Or.inr (Or.inl (sectionName_of_mem_addChunk h)))
    · exact Or.inr (Or.inr (Or.inr (Or.inl (sectionName_of_mem_addChunk h))))
  · exact Or.inr (Or.inr (Or.inr (Or.inr (sectionName_of_mem_addChunk h))))

lemma mem_styleChunks {c : Chunk} {sr : StyleRulesSection}
    (h : c ∈ styleChunks sr) :
    c.sectionName = "style_rules.reading_level" ∨
      c.sectionName = "style_rules.length_guidelines" := by
  unfold styleChunks at h
  rcases List.mem_append.mp h with h | h
  · exact Or.inl (sectionName_of_mem_addChunk h)
  · split at h
    · exact Or.inr (sectionName_of_mem_addChunk h)
    · simp at h

lemma mem_visualChunks {c : Chunk} {vg : VisualSection}
    (h : c ∈ visualChunks vg) :
    c.sectionName = "visual.colors" ∨ c.sectionName = "visual.logo_rules" ∨
      c.sectionName = "visual.typography" ∨ c.sectionName = "visual.image_style" ∨
      c.sectionName = "visual.notes" := by
  unfold visualChunks at h
  rcases List.mem_append.mp h with h | h
  · rcases List.mem_append.mp h with h | h
    · rcases List.mem_append.mp h with h | h
      · rcases List.mem_append.mp h with h | h
        · exact Or.inl (sectionName_of_mem_addChunk h)
        · exact Or.inr (Or.inl (sectionName_of_mem_addChunk h))
      · exact Or.inr (Or.inr (Or.inl (sectionName_of_mem_addChunk h)))
    · exact Or.inr (Or.inr (Or.inr (Or.inl (sectionName_of_mem_addChunk h))))
  · exact Or.inr (Or.inr (Or.inr (Or.inr (sectionName_of_mem_addChunk h))))

lemma mem_exampleChunks {c : Chunk} {ex : ExamplesSection}
    (h : c ∈ exampleChunks ex) :
    c.sectionName = "examples.good" ∨ c.sectionName = "examples.bad" := by
  unfold exampleChunks at h
  rcases List.mem_append.mp h with h | h
  · split at h
    · exact Or.inl (sectionName_of_mem_addChunk h)
    · simp at h
  · split at h
    · exact Or.inr (sectionName_of_mem_addChunk h)
    · simp at h

/-! ## Claims -/

/-- C1: for every parsed audit judgment whose `violations` field is a list
and whose `validated_rules_count` is an integer, the recorded verdict follows
the deterministic policy: non-empty violations give FAIL; otherwise a
validated-rule count below 2 gives FAIL; otherwise CHECK. -/
theorem audit_verdict_policy (audit : List (String × JValue)) (vs : List JValue) (n : Int)
    (hv : dget audit "violations" = some (.arr vs))
    (hc : dget audit "validated_rules_count" = some (jint n)) :
    audit_verdict audit =
      some (if 0 < vs.length then "FAIL" else if n < 2 then "FAIL" else "CHECK") := by
  unfold audit_verdict
  rw [hv, hc, getD_pyInt_jint]
  cases vs with
  | nil => simp [pyOr, pyTruthy, pyLen]
  | cons hd tl => simp [pyOr, pyTruthy, pyLen]

/-- Witness for `audit_verdict_policy`: empty violations with two validated
rules yields CHECK. -/
theorem audit_verdict_policy_witness :
    audit_verdict [("violations", JValue.arr []), ("validated_rules_count", jint 2)] =
      some "CHECK" := by
  have h := audit_verdict_policy
    [("violations", JValue.arr []), ("validated_rules_count", jint 2)] [] 2 rfl rfl
  simpa using h

/-- The two model responses of the C4 counterexample: identical except for
the self-reported `verdict` field. -/
def auditSaysCheck : List (String × JValue) :=
  [("verdict", .str "CHECK"), ("validated_rules_count", jint 0), ("violations", .arr [])]

def auditSaysFail : List (String × JValue) :=
  [("verdict", .str "FAIL"), ("validated_rules_count", jint 0), ("violations", .arr [])]

/-- C4 counterexample: the registered content audit route persists
`audit.get("verdict", "FAIL")`; two model responses that differ only in their
self-reported verdict yield different persisted verdicts there. -/
theorem route_verdict_trusts_model_cex :
    dget auditSaysCheck "violations" = dget auditSaysFail "violations" ∧
    dget auditSaysCheck "validated_rules_count" = dget auditSaysFail "validated_rules_count" ∧
    gov_route_verdict auditSaysCheck = .str "CHECK" ∧
    gov_route_verdict auditSaysFail = .str "FAIL" ∧
    gov_route_verdict auditSaysCheck ≠ gov_route_verdict auditSaysFail := by
  refine ⟨rfl, rfl, rfl, rfl, ?_⟩
  intro h
  rw [show gov_route_verdict auditSaysCheck = .str "CHECK" from rfl,
      show gov_route_verdict auditSaysFail = .str "FAIL" from rfl] at h
  exact absurd (JValue.str.inj h) (by decide)

/-- C4 amended: in the flows that apply the deterministic policy (the brand
audit route and both service-layer audits), the verdict — both the value
persisted in the `verdict` column and the `verdict` key of the persisted
report — depends only on the parsed `violations` and `validated_rules_count`
fields, never on the model's own verdict field. -/
theorem audit_verdict_model_independent (a1 a2 : List (String × JValue))
    (h1 : dget a1 "violations" = dget a2 "violations")
    (h2 : dget a1 "validated_rules_count" = dget a2 "validated_rules_count") :
    audit_verdict a1 = audit_verdict a2 ∧
    (audit_report a1).map (fun r => dget r "verdict") =
      (audit_report a2).map (fun r => dget r "verdict") := by
  have hv : audit_verdict a1 = audit_verdict a2 := by
    unfold audit_verdict
    rw [h1, h2]
  refine ⟨hv, ?_⟩
  unfold audit_report
  rw [hv]
  cases h : audit_verdict a2 with
  | none => rfl
  | some v => simp [dget]

/-- Witness for `audit_verdict_model_independent`: the two concrete responses
of the counterexample get the same policy verdict. -/
theorem audit_verdict_model_independent_witness :
    audit_verdict auditSaysCheck = audit_verdict auditSaysFail ∧
    (audit_report auditSaysCheck).map (fun r => dget r "verdict") =
      (audit_report auditSaysFail).map (fun r => dget r "verdict") :=
  audit_verdict_model_independent auditSaysCheck auditSaysFail rfl rfl

/-- C9: when the parsed judgment's `validated_rules_count` is absent or not
coercible to an integer, it is treated as 0 and, with an empty (or absent)
violations list, the verdict is FAIL: the audit fails closed. -/
theorem rule_count_fails_closed (audit : List (String × JValue))
    (hv : dget audit "violations" = some (.arr []) ∨ dget audit "violations" = none)
    (hc : ∀ v, dget audit "validated_rules_count" = some v → pyInt v = none) :
    (pyInt (pyOr (dget audit "validated_rules_count") (jint 0))).getD 0 = 0 ∧
    audit_verdict audit = some "FAIL" := by
  have hcount : (pyInt (pyOr (dget audit "validated_rules_count") (jint 0))).getD 0 = 0 := by
    cases hdg : dget audit "validated_rules_count" with
    | none => simp [pyOr, pyInt_jint]
    | some v =>
      have hpv := hc v hdg
      by_cases ht : pyTruthy v
      · simp [pyOr, ht, hpv]
      · simp [pyOr, ht, pyInt_jint]
  refine ⟨hcount, ?_⟩
  unfold audit_verdict
  rw [hcount]
  rcases hv with hv | hv <;> rw [hv] <;> simp [pyOr, pyTruthy, pyLen]

/-- Witness for `rule_count_fails_closed`: a string rule count that `int()`
cannot parse gives verdict FAIL. -/
theorem rule_count_fails_closed_witness :
    (pyInt (pyOr (dget [("violations", JValue.arr []),
        ("validated_rules_count", JValue.str "abc")] "validated_rules_count") (jint 0))).getD 0
        = 0 ∧
    audit_verdict [("violations", JValue.arr []),
        ("validated_rules_count", JValue.str "abc")] = some "FAIL" := by
  refine rule_count_fails_closed _ (Or.inl rfl) ?_
  intro v h
  rw [show dget [("violations", JValue.arr []), ("validated_rules_count", JValue.str "abc")]
      "validated_rules_count" = some (JValue.str "abc") from rfl] at h
  injection h with h
  subst h
  rfl

/-- C6: `approve` and `reject` on a content id with no matching row raise a
404 "Content not found" and leave the store — in particular the approvals
history — unchanged: the status update guards the history insert. -/
theorem decision_not_found_atomic (st : GovStore) (cid : String)
    (comment : Option String) (role created_by : Option String)
    (h : st.content_items.find? (fun p => p.1 == cid) = none) :
    approve st cid comment role created_by = (st, some ⟨404, "Content not found"⟩) ∧
    reject st cid comment role created_by = (st, some ⟨404, "Content not found"⟩) ∧
    (approve st cid comment role created_by).1.approvals = st.approvals ∧
    (reject st cid comment role created_by).1.approvals = st.approvals := by
  have happ : approve st cid comment role created_by = (st, some ⟨404, "Content not found"⟩) := by
    unfold approve _record_decision update_content_status
    rw [h]
    simp
  have hrej : reject st cid comment role created_by = (st, some ⟨404, "Content not found"⟩) := by
    unfold reject _record_decision update_content_status
    rw [h]
    simp
  exact ⟨happ, hrej, by rw [happ], by rw [hrej]⟩

/-- Witness for `decision_not_found_atomic`: a store with one unrelated item. -/
theorem decision_not_found_atomic_witness :
    approve ⟨[("other", ⟨"PENDING"⟩)], []⟩ "missing" none (some "approver_a") (some "u") =
      (⟨[("other", ⟨"PENDING"⟩)], []⟩, some ⟨404, "Content not found"⟩) ∧
    reject ⟨[("other", ⟨"PENDING"⟩)], []⟩ "missing" none (some "approver_a") (some "u") =
      (⟨[("other", ⟨"PENDING"⟩)], []⟩, some ⟨404, "Content not found"⟩) ∧
    (approve ⟨[("other", ⟨"PENDING"⟩)], []⟩ "missing" none (some "approver_a")
      (some "u")).1.approvals = [] ∧
    (reject ⟨[("other", ⟨"PENDING"⟩)], []⟩ "missing" none (some "approver_a")
      (some "u")).1.approvals = [] :=
  decision_not_found_atomic ⟨[("other", ⟨"PENDING"⟩)], []⟩ "missing" none
    (some "approver_a") (some "u") rfl

/-- C7: when fewer than 3 chunks are retrieved (and a manual exists),
`generate_content` fails with the 422 insufficient-context error before
calling the LLM or persisting anything: neither call appears in the trace. -/
theorem generate_insufficient_context (env : GenEnv) (req : GenRequest) (mid : String)
    (hm : env.latest_manual = some mid) (hc : env.rag_chunks.length < 3) :
    (generate_content env req).1 =
      .error ⟨422, "RAG insuficiente: no se recuperó contexto suficiente del manual."⟩ ∧
    GenEvent.llmCall ∉ (generate_content env req).2 ∧
    GenEvent.persistCall ∉ (generate_content env req).2 := by
  unfold generate_content
  rw [hm]
  simp [hc]

/-- Witness for `generate_insufficient_context`: two retrieved chunks. -/
theorem generate_insufficient_context_witness :
    (generate_content ⟨some "m1", [⟨some "tone.dos", some 1, ""⟩, ⟨some "tone.donts", some 0, ""⟩],
        "out", some "c1"⟩ ⟨"b1", "product_description", "brief"⟩).1 =
      .error ⟨422, "RAG insuficiente: no se recuperó contexto suficiente del manual."⟩ ∧
    GenEvent.llmCall ∉ (generate_content ⟨some "m1",
        [⟨some "tone.dos", some 1, ""⟩, ⟨some "tone.donts", some 0, ""⟩],
        "out", some "c1"⟩ ⟨"b1", "product_description", "brief"⟩).2 ∧
    GenEvent.persistCall ∉ (generate_content ⟨some "m1",
        [⟨some "tone.dos", some 1, ""⟩, ⟨some "tone.donts", some 0, ""⟩],
        "out", some "c1"⟩ ⟨"b1", "product_description", "brief"⟩).2 :=
  generate_insufficient_context _ _ "m1" rfl (by decide)

/-- Concrete chunks for the C2/C3 theorems: a `messaging.taglines` chunk with
similarity 0.9 and a `visual.logo_rules` chunk with similarity 0.1. -/
def tagChunk : RChunk := ⟨some "messaging.taglines", some (9/10), ""⟩

def logoChunk : RChunk := ⟨some "visual.logo_rules", some (1/10), ""⟩

lemma score_tagChunk : score "image_prompt" tagChunk = 60090 := by
  rw [score_eq_effective]
  rw [show effective_weight "image_prompt" tagChunk = 60 from by decide]
  norm_num [tagChunk, pyOrZero]

lemma score_logoChunk : score "image_prompt" logoChunk = 65010 := by
  rw [score_eq_effective]
  rw [show effective_weight "image_prompt" logoChunk = 65 from by decide]
  norm_num [logoChunk, pyOrZero]

lemma rerank_pair_eval :
    rerank_chunks [tagChunk, logoChunk] "image_prompt" 2 = [logoChunk, tagChunk] := by
  unfold rerank_chunks
  norm_num [List.insertionSort, List.orderedInsert, score_tagChunk, score_logoChunk]

/-- C2 counterexample: the `messaging.taglines` chunk has the strictly higher
priority-table weight (60 vs 40), yet for `image_prompt` the reranker places
the `visual.logo_rules` chunk first, because the +25 visual bonus is added to
the weight inside the 1000-fold multiplier. -/
theorem rerank_table_weight_cex :
    _weight_for_section "messaging.taglines" = 60 ∧
    _weight_for_section "visual.logo_rules" = 40 ∧
    pyOrZero tagChunk.similarity = 9/10 ∧
    pyOrZero logoChunk.similarity = 1/10 ∧
    rerank_chunks [tagChunk, logoChunk] "image_prompt" 2 ≠ [tagChunk, logoChunk] ∧
    rerank_chunks [tagChunk, logoChunk] "image_prompt" 2 = [logoChunk, tagChunk] := by
  refine ⟨by decide, by decide, by norm_num [tagChunk, pyOrZero],
    by norm_num [logoChunk, pyOrZero], ?_, rerank_pair_eval⟩
  rw [rerank_pair_eval]
  intro h
  have := congrArg (fun l => l.head?) h
  simp [logoChunk, tagChunk] at this

/-- C2 amended: ranking is governed by the effective weight — table weight
plus content-type bonus, exactly as `score` computes it.  A candidate with a
strictly higher effective weight precedes any candidate with a lower one (for
similarities in [0,1]); among equal effective weights the higher similarity
precedes.  Positions are over the reranked (truncated) output. -/
theorem rerank_effective_dominance
    (cs : List RChunk) (ct : String) (k : Nat) (a b : RChunk)
    (ha0 : 0 ≤ pyOrZero a.similarity) (ha1 : pyOrZero a.similarity ≤ 1)
    (hb0 : 0 ≤ pyOrZero b.similarity) (hb1 : pyOrZero b.similarity ≤ 1)
    (hw : effective_weight ct b < effective_weight ct a ∨
          (effective_weight ct a = effective_weight ct b ∧
           pyOrZero b.similarity < pyOrZero a.similarity))
    (i j : Nat) (hi : i < (rerank_chunks cs ct k).length)
    (hj : j < (rerank_chunks cs ct k).length)
    (hia : (rerank_chunks cs ct k).get ⟨i, hi⟩ = a)
    (hjb : (rerank_chunks cs ct k).get ⟨j, hj⟩ = b) :
    i < j := by
  have hscore : score ct b < score ct a := by
    rw [score_eq_effective, score_eq_effective]
    rcases hw with h | ⟨he, hs⟩
    · have hcast : (effective_weight ct b : ℚ) + 1 ≤ (effective_weight ct a : ℚ) := by
        exact_mod_cast Int.add_one_le_iff.mpr h
      nlinarith
    · rw [he]
      linarith
  have hsorted : (List.insertionSort
      (fun x y => score ct y ≤ score ct x) cs).Sorted
      (fun x y => score ct y ≤ score ct x) := by
    haveI : IsTotal RChunk (fun x y => score ct y ≤ score ct x) :=
      ⟨fun x y => le_total (score ct y) (score ct x)⟩
    haveI : IsTrans RChunk (fun x y => score ct y ≤ score ct x) :=
      ⟨fun x y z hxy hyz => le_trans hyz hxy⟩
    exact List.sorted_insertionSort _ cs
  have htake : (rerank_chunks cs ct k).Pairwise (fun x y => score ct y ≤ score ct x) :=
    List.Pairwise.sublist (List.take_sublist _ _) hsorted
  by_contra hij
  push_neg at hij
  rcases lt_or_eq_of_le hij with hji | hji
  · have hrel := List.pairwise_iff_get.mp htake ⟨j, hj⟩ ⟨i, hi⟩ hji
    rw [hia, hjb] at hrel
    exact absurd hrel (not_le.mpr hscore)
  · have hab : a = b := by
      rw [← hia, ← hjb]
      congr 1
      exact (Fin.mk_eq_mk.mpr hji.symm)
    rw [hab] at hscore
    exact lt_irrefl _ hscore

/-- Witness for `rerank_effective_dominance`: in the counterexample pair the
logo chunk (effective weight 65) precedes the taglines chunk (60). -/
theorem rerank_effective_dominance_witness : (0 : Nat) < 1 :=
  rerank_effective_dominance [tagChunk, logoChunk] "image_prompt" 2 logoChunk tagChunk
    (by norm_num [logoChunk, pyOrZero]) (by norm_num [logoChunk, pyOrZero])
    (by norm_num [tagChunk, pyOrZero]) (by norm_num [tagChunk, pyOrZero])
    (Or.inl (by decide))
    0 1
    (by simp [rerank_pair_eval])
    (by simp [rerank_pair_eval])
    (by simp [rerank_pair_eval])
    (by simp [rerank_pair_eval])

/-- The chunk of the C3 counterexample: a `visual.colors` chunk, similarity 0. -/
def colorChunk : RChunk := ⟨some "visual.colors", some 0, ""⟩

/-- C3 counterexample: for an `image_prompt` over a `visual.colors` chunk with
similarity 0, the claimed formula `(weight*1000) + (sim*100) + bonus` gives
35025, but the code's score is 60000: the +25 bonus is multiplied by 1000. -/
theorem score_bonus_cex :
    _weight_for_section "visual.colors" = 35 ∧
    type_bonus "image_prompt" "visual.colors" = 25 ∧
    score "image_prompt" colorChunk = 60000 ∧
    spec_claimed_score "image_prompt" colorChunk = 35025 ∧
    score "image_prompt" colorChunk ≠ spec_claimed_score "image_prompt" colorChunk := by
  have h1 : score "image_prompt" colorChunk = 60000 := by
    rw [score_eq_effective]
    rw [show effective_weight "image_prompt" colorChunk = 60 from by decide]
    norm_num [colorChunk, pyOrZero]
  have h2 : spec_claimed_score "image_prompt" colorChunk = 35025 := by
    unfold spec_claimed_score
    rw [show _weight_for_section ((colorChunk.sectionName).getD "") = 35 from by decide,
        show type_bonus "image_prompt" ((colorChunk.sectionName).getD "") = 25 from by decide]
    norm_num [colorChunk, pyOrZero]
  refine ⟨by decide, by decide, h1, h2, ?_⟩
  rw [h1, h2]
  norm_num

/-- C3 amended: the score equals table weight times 1000 plus similarity
times 100 plus the content-type bonus times 1000 — the bonus sits inside the
1000-fold multiplier, not outside. -/
theorem score_formula_amended (ct : String) (c : RChunk) :
    score ct c = (_weight_for_section (c.sectionName.getD "") : ℚ) * 1000
      + pyOrZero c.similarity * 100
      + (type_bonus ct (c.sectionName.getD "") : ℚ) * 1000 := by
  rw [score_eq_effective]
  unfold effective_weight
  push_cast
  ring

/-- C5 counterexample: a document with a populated messaging section but no
`tone` key makes `chunk_manual` raise a `KeyError` instead of returning a
chunk list that merely omits the tone chunks. -/
theorem chunk_manual_missing_tone_cex :
    chunk_manual ⟨none, some ⟨["v"], [], [], [], []⟩, none, none, none, none, none⟩ =
      .error "KeyError: tone" := rfl

/-- C5 amended: a document missing the hard-indexed `tone` key (or one whose
tone lacks `description`) raises a `KeyError`; with both present,
`chunk_manual` never raises, and every other absent top-level section —
messaging, style_rules, visual_guidelines, examples, approval_checklist,
assumptions — is silently skipped: the returned list omits that section's
chunks. -/
theorem chunk_manual_skips_absent_sections (m : PyManual) :
    (m.tone = none → chunk_manual m = .error "KeyError: tone") ∧
    (∀ t, m.tone = some t → t.description = none →
      chunk_manual m = .error "KeyError: description") ∧
    (∀ t d, m.tone = some t → t.description = some d →
      ∃ l, chunk_manual m = .ok l ∧
        (m.messaging = none → ∀ c ∈ l, pyStartsWith c.sectionName "messaging." = false) ∧
        (m.style_rules = none → ∀ c ∈ l, pyStartsWith c.sectionName "style_rules." = false) ∧
        (m.visual_guidelines = none → ∀ c ∈ l, pyStartsWith c.sectionName "visual." = false) ∧
        (m.examples = none → ∀ c ∈ l, pyStartsWith c.sectionName "examples." = false) ∧
        (m.approval_checklist = none → ∀ c ∈ l, c.sectionName ≠ "approval_checklist") ∧
        (m.assumptions = none → ∀ c ∈ l, c.sectionName ≠ "assumptions")) := by
  refine ⟨?_, ?_, ?_⟩
  · intro h1
    simp only [chunk_manual, h1]
  · intro t h1 h2
    simp only [chunk_manual, h1, h2]
  · intro t d ht hd
    refine ⟨_, by simp only [chunk_manual, ht, hd]; rfl, ?_, ?_, ?_, ?_, ?_, ?_⟩
    · intro habs c hc
      rw [habs, show (none : Option MessagingSection).getD {} = {} from rfl,
        msgChunks_default] at hc
      rcases mem_append7 hc with h | h | h | h | h | h | h
      · rcases mem_toneChunks h with h | h | h <;> rw [h] <;> decide
      · exact absurd h (List.not_mem_nil c)
      · rcases mem_styleChunks h with h | h <;> rw [h] <;> decide
      · rcases mem_visualChunks h with h | h | h | h | h <;> rw [h] <;> decide
      · rcases mem_exampleChunks h with h | h <;> rw [h] <;> decide
      · rw [sectionName_of_mem_addChunk h]; decide
      · rw [sectionName_of_mem_addChunk h]; decide
    · intro habs c hc
      rw [habs, show (none : Option StyleRulesSection).getD {} = {} from rfl,
        styleChunks_default] at hc
      rcases mem_append7 hc with h | h | h | h | h | h | h
      · rcases mem_toneChunks h with h | h | h <;> rw [h] <;> decide
      · rcases mem_msgChunks h with h | h | h | h | h <;> rw [h] <;> decide
      · exact absurd h (List.not_mem_nil c)
      · rcases mem_visualChunks h with h | h | h | h | h <;> rw [h] <;> decide
      · rcases mem_exampleChunks h with h | h <;> rw [h] <;> decide
      · rw [sectionName_of_mem_addChunk h]; decide
      · rw [sectionName_of_mem_addChunk h]; decide
    · intro habs c hc
      rw [habs, show (none : Option VisualSection).getD {} = {} from rfl,
        visualChunks_default] at hc
      rcases mem_append7 hc with h | h | h | h | h | h | h
      · rcases mem_toneChunks h with h | h | h <;> rw [h] <;> decide
      · rcases mem_msgChunks h with h | h | h | h | h <;> rw [h] <;> decide
      · rcases mem_styleChunks h with h | h <;> rw [h] <;> decide
      · exact absurd h (List.not_mem_nil c)
      · rcases mem_exampleChunks h with h | h <;> rw [h] <;> decide
      · rw [sectionName_of_mem_addChunk h]; decide
      · rw [sectionName_of_mem_addChunk h]; decide
    · intro habs c hc
      rw [habs, show (none : Option ExamplesSection).getD {} = {} from rfl,
        exampleChunks_default] at hc
      rcases mem_append7 hc with h | h | h | h | h | h | h
      · rcases mem_toneChunks h with h | h | h <;> rw [h] <;> decide
      · rcases mem_msgChunks h with h | h | h | h | h <;> rw [h] <;> decide
      · rcases mem_styleChunks h with h | h <;> rw [h] <;> decide
      · rcases mem_visualChunks h with h | h | h | h | h <;> rw [h] <;> decide
      · exact absurd h (List.not_mem_nil c)
      · rw [sectionName_of_mem_addChunk h]; decide
      · rw [sectionName_of_mem_addChunk h]; decide
    · intro habs c hc
      rw [habs, show addChunk "approval_checklist"
        ("\n".intercalate ((none : Option (List String)).getD [])) = [] from rfl] at hc
      rcases mem_append7 hc with h | h | h | h | h | h | h
      · rcases mem_toneChunks h with h | h | h <;> rw [h] <;> decide
      · rcases mem_msgChunks h with h | h | h | h | h <;> rw [h] <;> decide
      · rcases mem_styleChunks h with h | h <;> rw [h] <;> decide
      · rcases mem_visualChunks h with h | h | h | h | h <;> rw [h] <;> decide
      · rcases mem_exampleChunks h with h | h <;> rw [h] <;> decide
      · exact absurd h (List.not_mem_nil c)
      · rw [sectionName_of_mem_addChunk h]; decide
    · intro habs c hc
      rw [habs, show addChunk "assumptions"
        ("\n".intercalate ((none : Option (List String)).getD [])) = [] from rfl] at hc
      rcases mem_append7 hc with h | h | h | h | h | h | h
      · rcases mem_toneChunks h with h | h | h <;> rw [h] <;> decide
      · rcases mem_msgChunks h with h | h | h | h | h <;> rw [h] <;> decide
      · rcases mem_styleChunks h with h | h <;> rw [h] <;> decide
      · rcases mem_visualChunks h with h | h | h | h | h <;> rw [h] <;> decide
      · rcases mem_exampleChunks h with h | h <;> rw [h] <;> decide
      · rw [sectionName_of_mem_addChunk h]; decide
      · exact absurd h (List.not_mem_nil c)

/-- Witness for `chunk_manual_skips_absent_sections`: a document with no tone
raises, a tone without description raises, and a document with only a tone
description yields a chunk list omitting every other section's chunks. -/
theorem chunk_manual_skips_absent_sections_witness :
    chunk_manual ⟨none, none, none, none, none, none, none⟩ = .error "KeyError: tone" ∧
    chunk_manual ⟨some ⟨none, [], []⟩, none, none, none, none, none, none⟩ =
      .error "KeyError: description" ∧
    ∃ l, chunk_manual ⟨some ⟨some "warm", [], []⟩, none, none, none, none, none, none⟩ =
        .ok l ∧
      ((⟨some ⟨some "warm", [], []⟩, none, none, none, none, none,
          none⟩ : PyManual).messaging = none →
        ∀ c ∈ l, pyStartsWith c.sectionName "messaging." = false) ∧
      ((⟨some ⟨some "warm", [], []⟩, none, none, none, none, none,
          none⟩ : PyManual).style_rules = none →
        ∀ c ∈ l, pyStartsWith c.sectionName "style_rules." = false) ∧
      ((⟨some ⟨some "warm", [], []⟩, none, none, none, none, none,
          none⟩ : PyManual).visual_guidelines = none →
        ∀ c ∈ l, pyStartsWith c.sectionName "visual." = false) ∧
      ((⟨some ⟨some "warm", [], []⟩, none, none, none, none, none,
          none⟩ : PyManual).examples = none →
        ∀ c ∈ l, pyStartsWith c.sectionName "examples." = false) ∧
      ((⟨some ⟨some "warm", [], []⟩, none, none, none, none, none,
          none⟩ : PyManual).approval_checklist = none →
        ∀ c ∈ l, c.sectionName ≠ "approval_checklist") ∧
      ((⟨some ⟨some "warm", [], []⟩, none, none, none, none, none,
          none⟩ : PyManual).assumptions = none →
        ∀ c ∈ l, c.sectionName ≠ "assumptions") :=
  ⟨(chunk_manual_skips_absent_sections ⟨none, none, none, none, none, none, none⟩).1 rfl,
   (chunk_manual_skips_absent_sections
      ⟨some ⟨none, [], []⟩, none, none, none, none, none, none⟩).2.1 _ rfl rfl,
   (chunk_manual_skips_absent_sections
      ⟨some ⟨some "warm", [], []⟩, none, none, none, none, none, none⟩).2.2 _ "warm" rfl rfl⟩

/-- C10 counterexample: on `"x {y} z"` the direct parse fails and the text
does contain a braced substring (`"{y}"`), yet `extract_json` still raises —
a `JSONDecodeError` from parsing the extracted span — refuting "raises only
when ... the text contains no braced substring". -/
theorem extract_json_raises_cex :
    (braceSpan (stripFences "x \x7by\x7d z")).isSome = true ∧
    braceSpan (stripFences "x \x7by\x7d z") = some "\x7by\x7d" ∧
    extract_json "x \x7by\x7d z" = .error .jsonDecodeError := ⟨rfl, rfl, rfl⟩

/-- C10 amended: whatever the fence-stripped text directly parses to — object,
array or scalar — is returned without raising; `extract_json` raises exactly
when the direct parse fails and either there is no braced substring (then
`ValueError`) or the first-brace-to-last-brace span itself fails to parse. -/
theorem extract_json_behavior (s : String) :
    (∀ v, json_loads (stripFences s) = some v → extract_json s = .ok v) ∧
    ((extract_json s).isOk = false ↔
      json_loads (stripFences s) = none ∧
        (braceSpan (stripFences s) = none ∨
         ∃ sub, braceSpan (stripFences s) = some sub ∧ json_loads sub = none)) := by
  unfold extract_json
  rcases h1 : json_loads (stripFences s) with _ | v
  · simp only [h1]
    rcases h2 : braceSpan (stripFences s) with _ | sub
    · simp [h2, Except.isOk, Except.toBool]
    · rcases h3 : json_loads sub with _ | w
      · simp [h2, h3, Except.isOk, Except.toBool]
      · simp [h2, h3, Except.isOk, Except.toBool]
  · simp only [h1]
    constructor
    · intro v' hv'
      injection hv' with hv'
      rw [hv']
    · simp [Except.isOk, Except.toBool]

/-- Witness for `extract_json_behavior`: a JSON array and a bare integer are
returned as parsed, not errors. -/
theorem extract_json_behavior_witness :
    extract_json "[1, 2]" = .ok (.arr [jint 1, jint 2]) ∧
    extract_json "42" = .ok (jint 42) :=
  ⟨(extract_json_behavior "[1, 2]").1 _ rfl, (extract_json_behavior "42").1 _ rfl⟩

/-- C8 counterexample: a raw manual whose `style_rules.reading_level` is the
integer 5 comes out of `normalize_manual_dict` with `reading_level` still 5 —
a non-string raw value is passed through, not normalized into
\x7bsimple, medium\x7d. -/
theorem reading_level_non_string_cex :
    ((normalize_manual_dict [("style_rules", .obj [("reading_level", jint 5)])]).bind
        (fun m => dget m "style_rules")).bind (fun v => jget v "reading_level") =
      some (jint 5) ∧
    jint 5 ≠ JValue.str "simple" ∧ jint 5 ≠ JValue.str "medium" := by
  refine ⟨rfl, ?_, ?_⟩ <;> intro h <;> exact JValue.noConfusion h

/-- C8 amended: whenever the raw `reading_level` is absent or a string (and
normalization succeeds), the normalized manual's `style_rules.reading_level`
is exactly `"simple"` or `"medium"`; a non-string raw value passes through
unchanged. -/
theorem reading_level_normalized_amended (m m' sr : List (String × JValue))
    (hsr : dget m "style_rules" = some (.obj sr))
    (hrl : dget sr "reading_level" = none ∨ ∃ s, dget sr "reading_level" = some (.str s))
    (hok : normalize_manual_dict m = some m') :
    ∃ sr', dget m' "style_rules" = some (.obj sr') ∧
      (dget sr' "reading_level" = some (.str "simple") ∨
       dget sr' "reading_level" = some (.str "medium")) := by
  -- the style_rules block runs on `sr` itself
  have hget : getSection m "style_rules" = some sr := by
    unfold getSection
    rw [hsr]
    cases sr with
    | nil => rfl
    | cons hd tl => rfl
  -- the normalized reading level is "simple" or "medium"
  obtain ⟨rv, hrv, hmatch⟩ :
      ∃ rv, (rv = "simple" ∨ rv = "medium") ∧
        (match (dget sr "reading_level").getD (.str "simple") with
          | .str s => JValue.str (if strContains (pyLower s) "med" then "medium" else "simple")
          | v => v) = JValue.str rv := by
    rcases hrl with h | ⟨s, h⟩
    · rw [h]
      exact ⟨"simple", Or.inl rfl, rfl⟩
    · rw [h]
      by_cases hmed : strContains (pyLower s) "med"
      · exact ⟨"medium", Or.inr rfl, by simp [hmed]⟩
      · exact ⟨"simple", Or.inl rfl, by simp [hmed]⟩
  -- unfold the chain of blocks
  unfold normalize_manual_dict at hok
  rcases Option.bind_eq_some.mp hok with ⟨m1, hm1, hok1⟩
  rcases Option.bind_eq_some.mp hok1 with ⟨m2, hm2, hok2⟩
  rcases Option.bind_eq_some.mp hok2 with ⟨m3, hm3, hok3⟩
  rcases Option.map_eq_some'.mp hok3 with ⟨m4, hm4, hm'⟩
  -- the style_rules block result
  unfold normalize_style_rules at hm1
  rw [hget, Option.map_some'] at hm1
  simp only [Option.some.injEq] at hm1
  rw [hmatch] at hm1
  set sr2 := dset (dset sr "reading_level" (JValue.str rv)) "length_guidelines"
    (_ensure_dict ((dget (dset sr "reading_level" (JValue.str rv)) "length_guidelines").getD .null))
    with hsr2
  have hm1' : m1 = dset m "style_rules" (.obj sr2) := hm1.symm
  -- style_rules survives the later blocks untouched
  have h1 : dget m1 "style_rules" = some (.obj sr2) := by
    rw [hm1', dget_dset_eq]
  have h2 : dget m2 "style_rules" = some (.obj sr2) := by
    unfold normalize_visual at hm2
    rcases Option.map_eq_some'.mp hm2 with ⟨vg, _, hm2'⟩
    rw [← hm2', dget_dset_ne _ _ _ _ (by decide), h1]
  have h3 : dget m3 "style_rules" = some (.obj sr2) := by
    unfold normalize_messaging at hm3
    rcases Option.map_eq_some'.mp hm3 with ⟨msg, _, hm3'⟩
    rw [← hm3', dget_dset_ne _ _ _ _ (by decide), h2]
  have h4 : dget m4 "style_rules" = some (.obj sr2) := by
    unfold normalize_tone at hm4
    rcases Option.map_eq_some'.mp hm4 with ⟨tone, _, hm4'⟩
    rw [← hm4', dget_dset_ne _ _ _ _ (by decide), h3]
  have h5 : dget m' "style_rules" = some (.obj sr2) := by
    rw [← hm']
    unfold normalize_lists
    rw [dget_dset_ne _ _ _ _ (by decide), dget_dset_ne _ _ _ _ (by decide), h4]
  refine ⟨sr2, h5, ?_⟩
  have hread : dget sr2 "reading_level" = some (JValue.str rv) := by
    rw [hsr2, dget_dset_ne _ _ _ _ (by decide), dget_dset_eq]
  rcases hrv with h | h <;> rw [h] at hread
  · exact Or.inl hread
  · exact Or.inr hread

/-- Witness for `reading_level_normalized_amended`: an empty raw
`style_rules` dict yields reading level `"simple"`. -/
theorem reading_level_normalized_amended_witness :
    ∃ sr', dget [("style_rules", .obj [("reading_level", .str "simple"),
          ("length_guidelines", .obj [])]),
        ("visual_guidelines", .obj [("colors", .arr []), ("logo_rules", .arr []),
          ("typography", .arr []), ("image_style", .arr [])]),
        ("messaging", .obj [("value_props", .arr []), ("taglines", .arr []),
          ("forbidden_claims", .arr []), ("preferred_terms", .arr []),
          ("forbidden_terms", .arr [])]),
        ("tone", .obj [("dos", .arr []), ("donts", .arr [])]),
        ("approval_checklist", .arr []), ("assumptions", .arr [])] "style_rules"
        = some (.obj sr') ∧
      (dget sr' "reading_level" = some (.str "simple") ∨
       dget sr' "reading_level" = some (.str "medium")) :=
  reading_level_normalized_amended [("style_rules", .obj [])] _ [] rfl (Or.inl rfl) rfl
